import Mathlib

/-!
Shallow embedding of the `gitlogger` repository's consolidation pass
(`src/consolidation_main.py` together with the configuration module
`src/gcs_utils.py`).  The Python code manipulates JSON values, a GCS
bucket holding a master-log object, fragment objects, processed copies
and archive objects.  We model JSON values as an inductive type, the
Python `json` module's serialization (`json.dumps` with default
separators and with `indent=2`), Python's dynamic comparison semantics
used by `list.sort(key=...)`, and the store as explicit state threaded
through a deterministic run function.  Faults of the environment
(concurrent writers, copy/delete/archive failures, unexpected read
errors) are injected through an explicit `Env` record.
-/

namespace GitLogger

/-- JSON values as produced by Python's `json.loads`: `None`, booleans,
integers, strings, lists and dicts (dicts keep insertion order, which
`json.dumps` preserves).  Float literals are not needed by any input
considered here and are omitted from the model. -/
inductive Json where
  | null
  | bool (b : Bool)
  | num (n : Int)
  | str (s : String)
  | arr (elems : List Json)
  | obj (fields : List (String × Json))

/-- Lowercase hexadecimal digit, as used by Python's `\uXXXX` escapes. -/
def hexDigit (n : Nat) : Char :=
  if n < 10 then Char.ofNat (48 + n) else Char.ofNat (87 + n)

/-- Four lowercase hex digits. -/
def hex4 (n : Nat) : String :=
  String.mk [hexDigit ((n / 4096) % 16), hexDigit ((n / 256) % 16),
             hexDigit ((n / 16) % 16), hexDigit (n % 16)]

/-- Escape one character the way Python's `json.dumps` does with the
default `ensure_ascii=True`: short escapes for the common control
characters, `\uXXXX` (with surrogate pairs above the BMP) for every
other character outside the printable ASCII range `0x20`-`0x7e`. -/
def escapeChar (c : Char) : String :=
  if c = '"' then "\\\""
  else if c = '\\' then "\\\\"
  else if c = '\x08' then "\\b"
  else if c = '\x0c' then "\\f"
  else if c = '\n' then "\\n"
  else if c = '\r' then "\\r"
  else if c = '\t' then "\\t"
  else if 0x20 ≤ c.toNat ∧ c.toNat ≤ 0x7e then String.singleton c
  else if c.toNat ≤ 0xffff then "\\u" ++ hex4 c.toNat
  else
    "\\u" ++ hex4 (0xd800 + (c.toNat - 0x10000) / 1024) ++
    "\\u" ++ hex4 (0xdc00 + (c.toNat - 0x10000) % 1024)

/-- Escape a list of characters. -/
def escapeList : List Char → String
  | [] => ""
  | c :: cs => escapeChar c ++ escapeList cs

/-- JSON string-body escaping of a whole string. -/
def escapeString (s : String) : String := escapeList s.data

mutual

/-- Python `json.dumps(x)` with the default separators `(", ", ": ")`
and `ensure_ascii=True`: single-line output. -/
def dumps : Json → String
  | .null => "null"
  | .bool true => "true"
  | .bool false => "false"
  | .num n => toString n
  | .str s => "\"" ++ escapeString s ++ "\""
  | .arr [] => "[]"
  | .arr (x :: xs) => "[" ++ dumps x ++ dumpsRest xs ++ "]"
  | .obj [] => "\x7b\x7d"
  | .obj (kv :: kvs) => "\x7b" ++ dumpsField kv ++ dumpsFieldsRest kvs ++ "\x7d"

/-- One `"key": value` field of a dict. -/
def dumpsField : String × Json → String
  | (k, v) => "\"" ++ escapeString k ++ "\": " ++ dumps v

/-- Remaining list items, each preceded by the `", "` item separator. -/
def dumpsRest : List Json → String
  | [] => ""
  | x :: xs => ", " ++ dumps x ++ dumpsRest xs

/-- Remaining dict fields, each preceded by the `", "` item separator. -/
def dumpsFieldsRest : List (String × Json) → String
  | [] => ""
  | kv :: kvs => ", " ++ dumpsField kv ++ dumpsFieldsRest kvs

end

/-- A run of `n` spaces, for indented output. -/
def spaces (n : Nat) : String := String.mk (List.replicate n ' ')

mutual

/-- Python `json.dumps(x, indent=2)` at indentation level `ind`: the
item separator becomes `","` followed by a newline and indentation, the
key separator stays `": "`, and empty containers print without inner
newlines. -/
def dumpsInd : Nat → Json → String
  | _, .null => "null"
  | _, .bool true => "true"
  | _, .bool false => "false"
  | _, .num n => toString n
  | _, .str s => "\"" ++ escapeString s ++ "\""
  | _, .arr [] => "[]"
  | ind, .arr (x :: xs) =>
      "[\n" ++ spaces (ind + 2) ++ dumpsInd (ind + 2) x ++
      dumpsIndRest (ind + 2) xs ++ "\n" ++ spaces ind ++ "]"
  | _, .obj [] => "\x7b\x7d"
  | ind, .obj (kv :: kvs) =>
      "\x7b\n" ++ spaces (ind + 2) ++ dumpsIndField (ind + 2) kv ++
      dumpsIndFieldsRest (ind + 2) kvs ++ "\n" ++ spaces ind ++ "\x7d"

/-- One `"key": value` field at indentation level `ind`. -/
def dumpsIndField : Nat → String × Json → String
  | ind, (k, v) => "\"" ++ escapeString k ++ "\": " ++ dumpsInd ind v

/-- Remaining list items, indented. -/
def dumpsIndRest : Nat → List Json → String
  | _, [] => ""
  | ind, x :: xs => ",\n" ++ spaces ind ++ dumpsInd ind x ++ dumpsIndRest ind xs

/-- Remaining dict fields, indented. -/
def dumpsIndFieldsRest : Nat → List (String × Json) → String
  | _, [] => ""
  | ind, kv :: kvs => ",\n" ++ spaces ind ++ dumpsIndField ind kv ++ dumpsIndFieldsRest ind kvs

end

/-- Python `json.dumps(x, indent=2)`. -/
def dumpsIndent2 (j : Json) : String := dumpsInd 0 j

/-- UTF-8 byte length of a list of characters. -/
def utf8LenL : List Char → Nat
  | [] => 0
  | c :: cs => c.utf8Size + utf8LenL cs

/-- Python `len(s.encode("utf-8"))`: the UTF-8 byte length of a string. -/
def utf8Len (s : String) : Nat := utf8LenL s.data

/-- Exceptions the modeled Python code can raise or observe.  `copyError`
and `deleteError` stand for arbitrary storage exceptions during
retirement, `readError` / `writeError` for the generic `Exception`
branches around the master-log read and write. -/
inductive PyErr where
  | preconditionFailed
  | attributeError
  | typeError
  | readError
  | writeError
  | copyError
  | deleteError
deriving DecidableEq

/-- Python `s1 < s2` on strings: lexicographic comparison of the code
point sequences.  This is exactly Lean's `String` order, but we decide
it on the underlying character lists because the core instance
`String.decidableLT` (via `String.ltb`) is not kernel-reducible. -/
def pyStrLt (a b : String) : Bool := decide (a.data < b.data)

/-- Agreement of `pyStrLt` with the `String` order. -/
theorem pyStrLt_iff {a b : String} : pyStrLt a b = true ↔ a < b := by
  rw [pyStrLt, decide_eq_true_iff]
  exact String.lt_iff_toList_lt.symm

/-- Python `True`/`False` as the integers `1`/`0` (`bool` is a subtype of
`int` in Python, so booleans compare numerically). -/
def pyBoolInt (b : Bool) : Int := if b then 1 else 0

/-- Lookup in a dict represented as an ordered field list (Python dicts
cannot contain duplicate keys; on the representation the first
occurrence wins). -/
def pyDictFind : List (String × Json) → String → Option Json
  | [], _ => none
  | (k, v) :: rest, key => if k = key then some v else pyDictFind rest key

/-! Python comparison on JSON values.  The recursion nests through
lists and dict values, so we make the recursion depth explicit through a
fuel parameter (the wrappers below pass `jsize a + jsize b + 1`, an
upper bound on the depth, so the out-of-fuel branches are never
reached); this keeps the definitions structurally recursive and hence
computable by the kernel. -/

mutual

/-- Structural size of a JSON value, used as a recursion-depth bound. -/
def jsize : Json → Nat
  | .null => 1
  | .bool _ => 1
  | .num _ => 1
  | .str _ => 1
  | .arr l => 1 + jsizeList l
  | .obj l => 1 + jsizeFields l

/-- Structural size of a list of JSON values. -/
def jsizeList : List Json → Nat
  | [] => 0
  | x :: xs => 1 + jsize x + jsizeList xs

/-- Structural size of a field list. -/
def jsizeFields : List (String × Json) → Nat
  | [] => 0
  | (_, v) :: rest => 1 + jsize v + jsizeFields rest

end

mutual

/-- Fueled Python `==` on JSON values: `None` only equals `None`,
booleans are numbers (`True == 1`), lists compare elementwise, dicts
compare as unordered key-value maps (equal cardinality and every field
of one found with an equal value in the other). -/
def pyEqFuel : Nat → Json → Json → Bool
  | 0, _, _ => false
  | n + 1, a, b =>
      match a, b with
      | .null, .null => true
      | .bool x, .bool y => x == y
      | .bool x, .num m => pyBoolInt x == m
      | .num m, .bool y => m == pyBoolInt y
      | .num x, .num y => x == y
      | .str x, .str y => x == y
      | .arr x, .arr y => pyEqListFuel n x y
      | .obj x, .obj y => x.length == y.length && pyEqFieldsFuel n y x
      | _, _ => false

/-- Fueled elementwise equality of two lists. -/
def pyEqListFuel : Nat → List Json → List Json → Bool
  | 0, _, _ => false
  | _ + 1, [], [] => true
  | n + 1, x :: xs, y :: ys => pyEqFuel n x y && pyEqListFuel n xs ys
  | _ + 1, _, _ => false

/-- Fueled check that every field of the second list is present with an
equal value in the first. -/
def pyEqFieldsFuel : Nat → List (String × Json) → List (String × Json) → Bool
  | 0, _, _ => false
  | _ + 1, _, [] => true
  | n + 1, b, (k, v) :: rest =>
      (match pyDictFind b k with
       | some v2 => pyEqFuel n v v2
       | none => false) && pyEqFieldsFuel n b rest

end

/-- Python `==` on JSON values. -/
def pyEq (a b : Json) : Bool := pyEqFuel (jsize a + jsize b + 1) a b

mutual

/-- Fueled Python `<` on JSON values, as used by `list.sort`.  Numbers
and booleans compare numerically, strings compare lexicographically by
code point, lists compare lexicographically (skipping equal prefixes
with `==`), and every other combination raises `TypeError`. -/
def pyLtFuel : Nat → Json → Json → Except PyErr Bool
  | 0, _, _ => .error .typeError
  | n + 1, a, b =>
      match a, b with
      | .num x, .num y => .ok (decide (x < y))
      | .bool x, .bool y => .ok (decide (pyBoolInt x < pyBoolInt y))
      | .bool x, .num m => .ok (decide (pyBoolInt x < m))
      | .num m, .bool y => .ok (decide (m < pyBoolInt y))
      | .str x, .str y => .ok (pyStrLt x y)
      | .arr x, .arr y => pyLtListFuel n x y
      | _, _ => .error .typeError

/-- Fueled lexicographic `<` on lists: find the first index where the
elements differ (under `==`) and compare there; a strict prefix is
smaller. -/
def pyLtListFuel : Nat → List Json → List Json → Except PyErr Bool
  | 0, _, _ => .error .typeError
  | _ + 1, [], [] => .ok false
  | _ + 1, [], _ :: _ => .ok true
  | _ + 1, _ :: _, [] => .ok false
  | n + 1, x :: xs, y :: ys => if pyEq x y then pyLtListFuel n xs ys else pyLtFuel n x y

end

/-- Python `<` on JSON values (`TypeError` on unorderable operands). -/
def pyLt (a b : Json) : Except PyErr Bool := pyLtFuel (jsize a + jsize b + 1) a b

/-- The string/string case of `pyLt` never recurses, so it reduces for
arbitrary (symbolic) strings. -/
@[simp] theorem pyLt_str (a b : String) :
    pyLt (.str a) (.str b) = .ok (pyStrLt a b) := rfl

/-! Sorting.  `new_entries.sort(key=lambda x: x.get("timestamp",
"1970-01-01T00:00:00Z"))` in CPython first computes the key of every
element left to right (raising `AttributeError` on a non-dict element,
since only dicts have `.get`), then stable-sorts by comparing keys with
`<`.  We model the sort itself as a stable insertion sort; on any list
whose keys are mutually comparable this agrees with CPython's timsort,
and the only error raised before any comparison (the key-building
`AttributeError`) is reproduced exactly. -/

/-- Key extraction: `x.get("timestamp", "1970-01-01T00:00:00Z")` for a
dict, `AttributeError` for any other value. -/
def sortKeyOf : Json → Except PyErr Json
  | .obj kvs =>
      .ok (match pyDictFind kvs "timestamp" with
           | some v => v
           | none => .str "1970-01-01T00:00:00Z")
  | _ => .error .attributeError

/-- Decorate every element with its sort key, left to right, stopping at
the first `AttributeError`. -/
def buildKeys : List Json → Except PyErr (List (Json × Json))
  | [] => .ok []
  | x :: xs =>
      match sortKeyOf x with
      | .error e => .error e
      | .ok k =>
          match buildKeys xs with
          | .error e => .error e
          | .ok rest => .ok ((x, k) :: rest)

/-- Stable insertion of a decorated element: it is placed before the
first element whose key is strictly greater, hence after every earlier
element with an equal key. -/
def insertByKey (p : Json × Json) : List (Json × Json) → Except PyErr (List (Json × Json))
  | [] => .ok [p]
  | q :: rest =>
      match pyLt p.2 q.2 with
      | .error e => .error e
      | .ok true => .ok (p :: q :: rest)
      | .ok false =>
          match insertByKey p rest with
          | .error e => .error e
          | .ok r => .ok (q :: r)

/-- Insert the decorated elements one by one into an accumulator. -/
def sortLoop : List (Json × Json) → List (Json × Json) → Except PyErr (List (Json × Json))
  | acc, [] => .ok acc
  | acc, p :: rest =>
      match insertByKey p acc with
      | .error e => .error e
      | .ok acc2 => sortLoop acc2 rest

/-- The full `list.sort(key=...)` call: decorate, sort, undecorate. -/
def pySortByTimestamp (l : List Json) : Except PyErr (List Json) :=
  match buildKeys l with
  | .error e => .error e
  | .ok ks =>
      match sortLoop [] ks with
      | .error e => .error e
      | .ok out => .ok (out.map (fun p => p.1))

/-! The object store.  A run touches four disjoint name families inside
one bucket: the fixed master-log object `master_log.json`, fragment
objects under `fragments/`, processed copies under `processed/` and
archive snapshots under `archive/`.  We model each family as its own
field of the store.  Written objects keep both their exact text and the
value that text parses back to (`parse = none` models text that
`json.loads` rejects); objects the run itself writes are serialized with
`json.dumps(..., indent=2)`, whose output parses back to the serialized
value. -/

/-- Configuration constant `FRAGMENTS_PREFIX` from `gcs_utils.py`. -/
def FRAGMENTS_PREFIX : String := "fragments/"

/-- Configuration constant `PROCESSED_FRAGMENTS_PREFIX` from `gcs_utils.py`. -/
def PROCESSED_FRAGMENTS_PREFIX : String := "processed/"

/-- Configuration constant `MAX_LOG_SIZE_KB` from `consolidation_main.py`. -/
def MAX_LOG_SIZE_KB : Nat := 200

/-- The master-log object: stored text, its parse under `json.loads`
(`none` when the text is not valid JSON) and the store-assigned
generation number (a positive integer in GCS). -/
structure MasterObj where
  text : String
  parse : Option Json
  generation : Nat

/-- One fragment object under `fragments/`, with its full name, stored
text and the parse of that text. -/
structure Fragment where
  name : String
  text : String
  parse : Option Json

/-- The bucket state a run sees and produces. `fragments` is in listing
order (`list_blobs` returns names in lexicographic order; no claim
depends on that order).  `processed` and `archives` map object names to
stored text. -/
structure Store where
  master : Option MasterObj
  fragments : List Fragment
  processed : List (String × String)
  archives : List (String × String)

/-- Fault and concurrency injection for one run.  `interference`, when
`some m`, replaces the master-log object by `m` between the run's read
and its conditional write (a concurrent writer; in GCS any such
modification changes the generation).  `copyFails`/`deleteFails` decide
per source-object name whether the copy / batched delete of that
fragment fails.  `archiveTimestamp` is the formatted
`datetime.now(timezone.utc)` used in the archive object name. -/
structure Env where
  readFails : Bool
  interference : Option (Option MasterObj)
  writeFails : Bool
  archiveFails : Bool
  archiveTimestamp : String
  copyFails : String → Bool
  deleteFails : String → Bool

/-- The benign environment: no faults, no concurrent writer. -/
def Env.benign : Env where
  readFails := false
  interference := none
  writeFails := false
  archiveFails := false
  archiveTimestamp := "2024-01-01_00-00-00"
  copyFails := fun _ => false
  deleteFails := fun _ => false

/-- Outcome of one invocation: a normal `(message, http_code)` return or
an uncaught exception propagating out of the function. -/
inductive Outcome where
  | ok (msg : String) (code : Nat)
  | fatal (e : PyErr)
deriving DecidableEq

/-- Result of one modeled run: the returned outcome, the final store,
the names of original fragment objects actually deleted by this run (a
ghost trace used to state retirement properties) and whether the
rotation branch was taken (ghost). -/
structure RunResult where
  outcome : Outcome
  store : Store
  deleted : List String
  rotated : Bool

/-- Steps 2 of the source (lines 37-53): read the master log.  A missing
object yields an empty log and generation `0`; unparseable text or a
parse that is not a list yields an empty log but keeps the object's
generation (the generation was captured before `json.loads` ran).
Returns `(all_logs, generation)`. -/
def readMaster : Option MasterObj → List Json × Nat
  | none => ([], 0)
  | some o =>
      match o.parse with
      | some (.arr l) => (l, o.generation)
      | some _ => ([], o.generation)
      | none => ([], o.generation)

/-- Python `name.endswith("/")`: for the one-character suffix this is
exactly "the last character is `/`" (false on the empty string).  Core
`String.endsWith` is not kernel-reducible, so we test the character list
directly. -/
def endsWithSlash (s : String) : Bool := s.data.getLast? == some '/'

/-- Step 3 of the source (lines 56-65): walk the fragment listing,
skipping directory markers (names ending in `/`) and fragments whose
text `json.loads` rejects; return the decoded entries and the kept
fragment objects, both in listing order. -/
def processFragments : List Fragment → List Json × List Fragment
  | [] => ([], [])
  | f :: rest =>
      if endsWithSlash f.name then processFragments rest
      else
        match f.parse with
        | some j =>
            let r := processFragments rest
            (j :: r.1, f :: r.2)
        | none => processFragments rest

/-- Literal transcription of step 4's size test (line 76):
`len(current_content_str.encode("utf-8")) / 1024 > MAX_LOG_SIZE_KB`.
Python's `/` is exact here (a power-of-two denominator and sizes far
below 2^53, so the binary float division is exact), modeled as exact
rational division. -/
def rotationCheckSpec (s : String) : Prop :=
  (utf8Len s : ℚ) / 1024 > (MAX_LOG_SIZE_KB : ℚ)

/-- The size test used by the run function.  Rational division is not
kernel-reducible, so the run uses the equivalent integer comparison
`204800 < byte length`; `rotationCheck_correct` proves it coincides with
the literal transcription `rotationCheckSpec`. -/
def rotationCheck (s : String) : Bool := decide (204800 < utf8Len s)

/-- The integer comparison agrees with the literal float-division test:
the threshold fires exactly above `200 * 1024 = 204800` bytes. -/
theorem rotationCheck_correct (s : String) :
    rotationCheck s = true ↔ rotationCheckSpec s := by
  unfold rotationCheck rotationCheckSpec MAX_LOG_SIZE_KB
  rw [decide_eq_true_iff, gt_iff_lt, lt_div_iff₀ (by norm_num : (0 : ℚ) < 1024)]
  norm_num

/-- GCS semantics of `if_generation_match=g`: with `g = 0` the write
succeeds only if no live object exists; with `g > 0` it succeeds only if
the live object's generation is exactly `g`. -/
def genMatches (g : Nat) : Option MasterObj → Bool
  | none => g == 0
  | some o => g == o.generation

/-- Fresh generation assigned by the store to a successful write
(generations are opaque and strictly increasing). -/
def nextGen : Option MasterObj → Nat
  | none => 1
  | some o => o.generation + 1

/-- Destination name of a retired fragment (line 112): the
`fragments/` prefix is replaced by `processed/` and the remainder of the
name is kept unchanged. -/
def destName (srcName : String) : String :=
  PROCESSED_FRAGMENTS_PREFIX ++ srcName.drop FRAGMENTS_PREFIX.length

/-- Unconditional object write into a name-to-text map: an existing
object of the same name is overwritten. -/
def putObj : List (String × String) → String → String → List (String × String)
  | [], n, t => [(n, t)]
  | (n2, t2) :: rest, n, t =>
      if n2 = n then (n, t) :: rest else (n2, t2) :: putObj rest n t

/-- First retirement phase (lines 111-113): copy each consumed fragment
to its destination name, in order, stopping at the first failing copy.
Returns the updated `processed/` namespace and whether all copies
succeeded. -/
def copyPhase (copyFails : String → Bool) :
    List (String × String) → List Fragment → List (String × String) × Bool
  | procd, [] => (procd, true)
  | procd, f :: rest =>
      if copyFails f.name then (procd, false)
      else copyPhase copyFails (putObj procd (destName f.name) f.text) rest

/-- Second retirement phase (lines 116-118): the batched delete.  All
deletes in the batch are attempted; the names that were actually
deleted are returned together with a flag telling whether any delete
failed (in which case leaving the batch raises). -/
def deleteResults (deleteFails : String → Bool) : List Fragment → List String × Bool
  | [] => ([], false)
  | f :: rest =>
      let r := deleteResults deleteFails rest
      if deleteFails f.name then (r.1, true) else (f.name :: r.1, r.2)

/-- Step 7 of the source (lines 106-126): copy-then-delete retirement.
If any copy fails, nothing is deleted; if all copies succeed the batch
delete runs, and a partially failing batch leaves the non-failing
deletes applied but reports `processed_count = 0` (the exception from
the batch is caught by the surrounding `except`).  Returns the updated
store, the delete trace and `processed_count`. -/
def cleanupPhase (env : Env) (store : Store) (valid : List Fragment) :
    Store × List String × Nat :=
  let cp := copyPhase env.copyFails store.processed valid
  if cp.2 then
    let dr := deleteResults env.deleteFails valid
    let remaining := store.fragments.filter
      (fun g => !(valid.any (fun f => f.name == g.name) && !env.deleteFails g.name))
    ({ store with processed := cp.1, fragments := remaining },
     dr.1, if dr.2 then 0 else valid.length)
  else
    ({ store with processed := cp.1 }, [], 0)

/-- The consolidation entry point `handle_consolidation` of
`src/consolidation_main.py`, as a deterministic function of the initial
bucket state and the fault environment.  `initialized` models
`bucket is not None and storage_client is not None` (both are `None`
exactly when `gcs_utils` failed to initialize). -/
def handle_consolidation (initialized : Bool) (store : Store) (env : Env) : RunResult :=
  if !initialized then
    ⟨.ok "Service misconfigured" 204, store, [], false⟩
  else if store.fragments.isEmpty then
    ⟨.ok "No fragments to consolidate." 200, store, [], false⟩
  else if env.readFails then
    ⟨.fatal .readError, store, [], false⟩
  else
    let rm := readMaster store.master
    let allLogs := rm.1
    let generation := rm.2
    let pf := processFragments store.fragments
    let validFrags := pf.2
    if pf.1.isEmpty then
      ⟨.ok "No valid entries found in fragments." 200, store, [], false⟩
    else
      match pySortByTimestamp pf.1 with
      | .error e => ⟨.fatal e, store, [], false⟩
      | .ok newEntries =>
        let currentContentStr := dumps (.arr allLogs)
        let rot := rotationCheck currentContentStr
        let logsToArchive : List Json := if rot then allLogs else []
        let logsForMainFile := if rot then newEntries else allLogs ++ newEntries
        let gen2 := if rot then 0 else generation
        let masterNow := match env.interference with
          | some m => m
          | none => store.master
        if !genMatches gen2 masterNow then
          ⟨.fatal .preconditionFailed, { store with master := masterNow }, [], rot⟩
        else if env.writeFails then
          ⟨.fatal .writeError, { store with master := masterNow }, [], rot⟩
        else
          let newMaster : MasterObj :=
            { text := dumpsIndent2 (.arr logsForMainFile)
              parse := some (.arr logsForMainFile)
              generation := nextGen masterNow }
          let store1 := { store with master := some newMaster }
          let store2 := match logsToArchive with
            | [] => store1
            | x :: xs =>
                if env.archiveFails then store1
                else
                  let archName := "archive/master_log_" ++ env.archiveTimestamp ++ ".json"
                  let archText := dumpsIndent2 (.arr (x :: xs))
                  { store1 with archives := putObj store1.archives archName archText }
          let cr := cleanupPhase env store2 validFrags
          ⟨.ok ("Consolidation complete. Processed " ++ toString cr.2.2 ++ " fragments.") 200,
           cr.1, cr.2.1, rot⟩

/-! Predicates used to state the claims. -/

/-- The entry's sort key is a string (the key extraction succeeds, i.e.
the entry is a dict, and its `timestamp` value, or the default used when
it is missing, is a string).  Log entries as produced by the ingestion
service always satisfy this. -/
def isStrKeyB (j : Json) : Bool :=
  match sortKeyOf j with
  | .ok (.str _) => true
  | _ => false

/-- Decidable check that two consecutive entries are in non-decreasing
timestamp-key order (the later key is not `<` the earlier one). -/
def pairOkB (a b : Json) : Bool :=
  match sortKeyOf a, sortKeyOf b with
  | .ok ka, .ok kb =>
      (match pyLt kb ka with
       | .ok r => !r
       | .error _ => false)
  | _, _ => false

/-- A list of entries is in non-decreasing timestamp order. -/
def tsSortedB : List Json → Bool
  | a :: b :: rest => pairOkB a b && tsSortedB (b :: rest)
  | _ => true

/-- Sortedness relation on decorated pairs: the second key is not below
the first. -/
def keyLe (p q : Json × Json) : Prop := pyLt q.2 p.2 = .ok false

/-- A decorated pair whose key is the entry's key and is a string. -/
def goodPair (p : Json × Json) : Prop :=
  sortKeyOf p.1 = .ok p.2 ∧ ∃ s, p.2 = .str s

/-! Lemmas about the sort. -/

theorem buildKeys_map_fst {l : List Json} {ks : List (Json × Json)}
    (h : buildKeys l = .ok ks) : ks.map Prod.fst = l := by
  induction l generalizing ks with
  | nil => simp [buildKeys] at h; simp [← h]
  | cons x xs ih =>
    rw [buildKeys] at h
    cases hk : sortKeyOf x with
    | error e => rw [hk] at h; exact absurd h (by simp)
    | ok k =>
      rw [hk] at h
      cases hb : buildKeys xs with
      | error e => rw [hb] at h; exact absurd h (by simp)
      | ok rest =>
        rw [hb] at h
        cases h
        simp [ih hb]

theorem buildKeys_good {l : List Json} {ks : List (Json × Json)}
    (hstr : l.all isStrKeyB = true) (h : buildKeys l = .ok ks) :
    ∀ p ∈ ks, goodPair p := by
  induction l generalizing ks with
  | nil => simp [buildKeys] at h; subst h; simp
  | cons x xs ih =>
    rw [List.all_cons, Bool.and_eq_true] at hstr
    rw [buildKeys] at h
    cases hk : sortKeyOf x with
    | error e => rw [hk] at h; exact absurd h (by simp)
    | ok k =>
      rw [hk] at h
      cases hb : buildKeys xs with
      | error e => rw [hb] at h; exact absurd h (by simp)
      | ok rest =>
        rw [hb] at h
        cases h
        intro p hp
        rcases List.mem_cons.mp hp with hpe | hpr
        · subst hpe
          have hx := hstr.1
          simp only [isStrKeyB, hk] at hx
          cases k <;> simp at hx
          exact ⟨hk, _, rfl⟩
        · exact ih hstr.2 hb p hpr

theorem insertByKey_perm {p : Json × Json} {l r : List (Json × Json)}
    (h : insertByKey p l = .ok r) : r.Perm (p :: l) := by
  induction l generalizing r with
  | nil => simp [insertByKey] at h; simp [← h]
  | cons q rest ih =>
    rw [insertByKey] at h
    cases hlt : pyLt p.2 q.2 with
    | error e => rw [hlt] at h; exact absurd h (by simp)
    | ok b =>
      rw [hlt] at h
      cases b with
      | true => cases h; rfl
      | false =>
        cases hr : insertByKey p rest with
        | error e => rw [hr] at h; exact absurd h (by simp)
        | ok r2 =>
          rw [hr] at h
          cases h
          exact ((ih hr).cons q).trans (List.Perm.swap p q rest)

theorem sortLoop_perm {acc l r : List (Json × Json)}
    (h : sortLoop acc l = .ok r) : r.Perm (acc ++ l) := by
  induction l generalizing acc r with
  | nil => simp [sortLoop] at h; simp [← h]
  | cons p rest ih =>
    rw [sortLoop] at h
    cases hi : insertByKey p acc with
    | error e => rw [hi] at h; exact absurd h (by simp)
    | ok acc2 =>
      rw [hi] at h
      exact (ih h).trans
        (((insertByKey_perm hi).append_right rest).trans List.perm_middle.symm)

theorem pySort_perm {l out : List Json}
    (h : pySortByTimestamp l = .ok out) : out.Perm l := by
  rw [pySortByTimestamp] at h
  cases hb : buildKeys l with
  | error e => simp only [hb] at h; exact absurd h (by simp)
  | ok ks =>
    simp only [hb] at h
    cases hs : sortLoop [] ks with
    | error e => simp only [hs] at h; exact absurd h (by simp)
    | ok sorted =>
      simp only [hs] at h
      cases h
      have hperm : sorted.Perm ks := by
        have := sortLoop_perm hs
        simpa using this
      have := (hperm.map Prod.fst)
      rw [buildKeys_map_fst hb] at this
      exact this


theorem pyStrLt_asymm {a b : String} (h : pyStrLt a b = true) : pyStrLt b a = false := by
  cases hba : pyStrLt b a with
  | false => rfl
  | true => exact absurd (pyStrLt_iff.mp hba) (lt_asymm (pyStrLt_iff.mp h))

theorem insertByKey_ok {p : Json × Json} {l : List (Json × Json)}
    (hp : ∃ s, p.2 = .str s) (hl : ∀ q ∈ l, ∃ s, q.2 = .str s) :
    ∃ r, insertByKey p l = .ok r := by
  induction l with
  | nil => exact ⟨[p], rfl⟩
  | cons q rest ih =>
    obtain ⟨sp, hsp⟩ := hp
    obtain ⟨sq, hsq⟩ := hl q (by simp)
    rw [insertByKey, hsp, hsq, pyLt_str]
    cases pyStrLt sp sq with
    | true => exact ⟨_, rfl⟩
    | false =>
      obtain ⟨r, hr⟩ := ih (fun q2 hq2 => hl q2 (List.mem_cons_of_mem q hq2))
      rw [hr]
      exact ⟨_, rfl⟩

theorem insertByKey_chain {p : Json × Json} {l r : List (Json × Json)}
    (hp : ∃ s, p.2 = .str s) (hl : ∀ q ∈ l, ∃ s, q.2 = .str s)
    (hc : List.Chain' keyLe l) (h : insertByKey p l = .ok r) :
    List.Chain' keyLe r ∧ ∀ x, r.head? = some x → x = p ∨ l.head? = some x := by
  induction l generalizing r with
  | nil =>
    simp [insertByKey] at h
    subst h
    refine ⟨List.chain'_singleton p, ?_⟩
    intro x hx
    simp at hx
    exact Or.inl hx.symm
  | cons q rest ih =>
    obtain ⟨sp, hsp⟩ := hp
    obtain ⟨sq, hsq⟩ := hl q (by simp)
    rw [insertByKey, hsp, hsq, pyLt_str] at h
    cases hlt : pyStrLt sp sq with
    | true =>
      rw [hlt] at h
      cases h
      refine ⟨List.chain'_cons.mpr ⟨?_, hc⟩, ?_⟩
      · show pyLt q.2 p.2 = .ok false
        rw [hsp, hsq, pyLt_str, pyStrLt_asymm hlt]
      · intro x hx
        simp at hx
        exact Or.inl hx.symm
    | false =>
      rw [hlt] at h
      cases hr : insertByKey p rest with
      | error e => rw [hr] at h; exact absurd h (by simp)
      | ok r2 =>
        rw [hr] at h
        cases h
        have hrest := ih (fun q2 hq2 => hl q2 (List.mem_cons_of_mem q hq2)) hc.tail hr
        refine ⟨?_, ?_⟩
        · rw [List.chain'_cons']
          refine ⟨?_, hrest.1⟩
          intro y hy
          rcases hrest.2 y (Option.mem_def.mp hy) with hyp | hhd
          · have hy2 : y.2 = Json.str sp := by rw [hyp, hsp]
            show pyLt y.2 q.2 = .ok false
            rw [hy2, hsq, pyLt_str, hlt]
          · exact (List.chain'_cons'.mp hc).1 y (Option.mem_def.mpr hhd)
        · intro x hx
          simp at hx
          exact Or.inr (by simp [hx])

theorem sortLoop_chain {acc l r : List (Json × Json)}
    (hacc : ∀ q ∈ acc, ∃ s, q.2 = .str s) (hl : ∀ q ∈ l, ∃ s, q.2 = .str s)
    (hc : List.Chain' keyLe acc) (h : sortLoop acc l = .ok r) :
    List.Chain' keyLe r := by
  induction l generalizing acc r with
  | nil => simp [sortLoop] at h; subst h; exact hc
  | cons p rest ih =>
    rw [sortLoop] at h
    cases hi : insertByKey p acc with
    | error e => rw [hi] at h; exact absurd h (by simp)
    | ok acc2 =>
      rw [hi] at h
      have hins := insertByKey_chain (hl p (by simp)) hacc hc hi
      have hacc2 : ∀ q ∈ acc2, ∃ s, q.2 = .str s := by
        intro q hq
        rcases List.mem_cons.mp ((insertByKey_perm hi).mem_iff.mp hq) with hqp | hqa
        · subst hqp; exact hl q (by simp)
        · exact hacc q hqa
      exact ih hacc2 (fun q hq => hl q (List.mem_cons_of_mem p hq)) hins.1 h

theorem chain_tsSorted {out : List (Json × Json)}
    (hgood : ∀ p ∈ out, goodPair p) (hc : List.Chain' keyLe out) :
    tsSortedB (out.map Prod.fst) = true := by
  induction out with
  | nil => rfl
  | cons p rest ih =>
    cases rest with
    | nil => rfl
    | cons q rest2 =>
      rw [List.map_cons, List.map_cons, tsSortedB, Bool.and_eq_true]
      constructor
      · obtain ⟨hpk, sp, hsp⟩ := hgood p (by simp)
        obtain ⟨hqk, sq, hsq⟩ := hgood q (by simp)
        have hle : pyLt q.2 p.2 = .ok false := (List.chain'_cons.mp hc).1
        simp only [pairOkB, hpk, hqk, hle, Bool.not_false]
      · rw [← List.map_cons]
        exact ih (fun x hx => hgood x (List.mem_cons_of_mem p hx))
          (List.chain'_cons.mp hc).2

/-- Combined correctness of the modeled `list.sort(key=...)` on entries
whose keys are strings: the output is a permutation of the input and is
in non-decreasing timestamp order. -/
theorem pySort_sorted {l out : List Json} (hstr : l.all isStrKeyB = true)
    (h : pySortByTimestamp l = .ok out) :
    tsSortedB out = true ∧ out.Perm l := by
  refine ⟨?_, pySort_perm h⟩
  rw [pySortByTimestamp] at h
  cases hb : buildKeys l with
  | error e => simp only [hb] at h; exact absurd h (by simp)
  | ok ks =>
    simp only [hb] at h
    cases hs : sortLoop [] ks with
    | error e => simp only [hs] at h; exact absurd h (by simp)
    | ok sorted =>
      simp only [hs] at h
      cases h
      have hgoodks := buildKeys_good hstr hb
      have hperm : sorted.Perm ks := by simpa using sortLoop_perm hs
      have hgoodsorted : ∀ p ∈ sorted, goodPair p :=
        fun p hp => hgoodks p (hperm.mem_iff.mp hp)
      have hchain := sortLoop_chain (by simp)
        (fun q hq => (hgoodks q hq).2) List.chain'_nil hs
      exact chain_tsSorted hgoodsorted hchain

/-! Byte-length lemmas, used to drive the rotation threshold on a
symbolic oversized entry without the kernel evaluating a 200 KiB
string. -/

theorem utf8LenL_append (a b : List Char) :
    utf8LenL (a ++ b) = utf8LenL a + utf8LenL b := by
  induction a with
  | nil => simp [utf8LenL]
  | cons c cs ih => simp [utf8LenL, ih]; omega

theorem utf8Len_append (a b : String) :
    utf8Len (a ++ b) = utf8Len a + utf8Len b := by
  rw [utf8Len, utf8Len, utf8Len, String.data_append, utf8LenL_append]

theorem utf8Len_escape_rep (n : Nat) :
    utf8Len (escapeList (List.replicate n 'a')) = n := by
  induction n with
  | zero => rfl
  | succ m ih =>
    rw [List.replicate_succ, escapeList]
    have h1 : escapeChar 'a' = "a" := rfl
    rw [h1, utf8Len_append, ih]
    have h2 : utf8Len "a" = 1 := rfl
    omega

/-- A 204801-character string of `a`, used as an oversized timestamp. -/
def bigTs : String := String.mk (List.replicate 204801 'a')

/-- A log entry whose compact serialization inside a one-element list
exceeds the 204800-byte rotation threshold. -/
def bigEntry : Json := .obj [("timestamp", .str bigTs)]

theorem utf8Len_dumps_bigEntry : utf8Len (dumps (.arr [bigEntry])) = 204820 := by
  show utf8Len ("[" ++ ("\x7b" ++ ("\"" ++ escapeString "timestamp" ++ "\": " ++
    ("\"" ++ escapeString bigTs ++ "\"")) ++ "" ++ "\x7d") ++ "" ++ "]") = 204820
  have h1 : escapeString "timestamp" = "timestamp" := rfl
  have h2 : escapeString bigTs = escapeList (List.replicate 204801 'a') := rfl
  rw [h1, h2]
  simp only [utf8Len_append, utf8Len_escape_rep]
  rfl

theorem rotationCheck_bigEntry : rotationCheck (dumps (.arr [bigEntry])) = true := by
  rw [rotationCheck, utf8Len_dumps_bigEntry]
  rfl

/-! Helper lemmas about the run. -/

/-- The generation captured by the read always matches an unmodified
master object (also in the unparseable and not-a-list cases, where the
generation was captured before `json.loads` ran; a missing object reads
as generation 0 = "must not exist"). -/
theorem genMatches_readMaster (m : Option MasterObj) :
    genMatches (readMaster m).2 m = true := by
  cases m with
  | none => rfl
  | some o =>
    rw [genMatches]
    cases hp : o.parse with
    | none => simp [readMaster, hp]
    | some j => cases j <;> simp [readMaster, hp]

/-- Retirement never touches the master-log object. -/
theorem cleanupPhase_master (env : Env) (s : Store) (v : List Fragment) :
    ((cleanupPhase env s v).1).master = s.master := by
  rw [cleanupPhase]
  cases (copyPhase env.copyFails s.processed v).2 <;> simp

/-- Retirement never touches the archive namespace. -/
theorem cleanupPhase_archives (env : Env) (s : Store) (v : List Fragment) :
    ((cleanupPhase env s v).1).archives = s.archives := by
  rw [cleanupPhase]
  cases (copyPhase env.copyFails s.processed v).2 <;> simp

/-- Initialization of `gcs_utils.py` (lines 17-28): `storage_client` and
`bucket` are non-`None` exactly when the `MASTER_LOG_BUCKET` environment
variable is present and non-empty (Python truthiness) and the client
constructor does not raise (`clientOk`). -/
def gcsInitialized (masterLogBucket : Option String) (clientOk : Bool) : Bool :=
  match masterLogBucket with
  | none => false
  | some b => !(b == "") && clientOk

/-- The rotation decision of a run, as a function of the prior master
log alone (step 4, line 76): the compact serialization of the entries
read from the master object is measured against the threshold. -/
def rotDecision (store : Store) : Bool :=
  rotationCheck (dumps (.arr (readMaster store.master).1))

/-- The generation precondition the master-log write is attempted with:
`0` ("must not exist") when rotating, otherwise the generation captured
at read time. -/
def writeToken (store : Store) : Nat :=
  if rotDecision store then 0 else (readMaster store.master).2

/-- The result of a fault-free run that takes the append path (no
rotation): the master log becomes the prior entries followed by the
sorted new entries, serialized with `indent=2`, and retirement runs on
the valid fragments. -/
def appendResult (store : Store) (env : Env) (sNew : List Json) : RunResult :=
  let merged := (readMaster store.master).1 ++ sNew
  let newMaster : MasterObj :=
    ⟨dumpsIndent2 (.arr merged), some (.arr merged), nextGen store.master⟩
  let store1 : Store := { store with master := some newMaster }
  let cr := cleanupPhase env store1 (processFragments store.fragments).2
  ⟨.ok ("Consolidation complete. Processed " ++ toString cr.2.2 ++ " fragments.") 200,
   cr.1, cr.2.1, false⟩

/-- Characterization of fault-free append-path runs. -/
theorem run_append (store : Store) (env : Env) (sNew : List Json)
    (hfrag : store.fragments.isEmpty = false)
    (hread : env.readFails = false)
    (hint : env.interference = none)
    (hwrite : env.writeFails = false)
    (hne : (processFragments store.fragments).1.isEmpty = false)
    (hsort : pySortByTimestamp (processFragments store.fragments).1 = .ok sNew)
    (hrot : rotDecision store = false) :
    handle_consolidation true store env = appendResult store env sNew := by
  simp only [rotDecision] at hrot
  simp only [handle_consolidation, appendResult, hfrag, hread, hne, hsort, hint, hwrite,
    hrot, genMatches_readMaster, Bool.not_true, Bool.not_false, Bool.false_eq_true,
    if_false, if_true]

/-- Characterization of fault-free rotation-path runs: the rotation
branch resets the generation token to 0, GCS reads that as "the object
must not exist", the master log does exist (rotation implies a non-empty
prior log), so the write is rejected and the run dies fatally before the
archive and retirement steps. -/
theorem run_rotate_conflict (store : Store) (env : Env) (sNew : List Json)
    (hfrag : store.fragments.isEmpty = false)
    (hread : env.readFails = false)
    (hint : env.interference = none)
    (hne : (processFragments store.fragments).1.isEmpty = false)
    (hsort : pySortByTimestamp (processFragments store.fragments).1 = .ok sNew)
    (hrot : rotDecision store = true)
    (hgm : genMatches 0 store.master = false) :
    handle_consolidation true store env = ⟨.fatal .preconditionFailed, store, [], true⟩ := by
  simp only [rotDecision] at hrot
  simp only [handle_consolidation, hfrag, hread, hne, hsort, hint, hrot, hgm,
    Bool.not_true, Bool.not_false, Bool.false_eq_true, if_false, if_true]

/-! Claim theorems. -/

/-- Claim C9: whenever the store client or bucket capability is
uninitialized (missing or empty `MASTER_LOG_BUCKET`, or a failed client
construction), the invocation returns the non-retryable success-like
status `("Service misconfigured", 204)`, performs no store operation
(final store equals the initial store) and deletes nothing. -/
theorem C9_misconfig_noop (masterLogBucket : Option String) (clientOk : Bool)
    (store : Store) (env : Env)
    (h : gcsInitialized masterLogBucket clientOk = false) :
    handle_consolidation (gcsInitialized masterLogBucket clientOk) store env =
      ⟨.ok "Service misconfigured" 204, store, [], false⟩ := by
  rw [h]
  rfl

/-- Witness for C9: the empty environment variable. -/
theorem C9_misconfig_noop_witness :
    handle_consolidation (gcsInitialized (some "") true) ⟨none, [], [], []⟩ Env.benign =
      ⟨.ok "Service misconfigured" 204, ⟨none, [], [], []⟩, [], false⟩ :=
  C9_misconfig_noop (some "") true ⟨none, [], [], []⟩ Env.benign rfl

/-- Claim C8: when the fragment namespace lists no fragments, or no
listed fragment decodes to a valid entry, the run terminates early with
a 200-status no-op: the store is completely unchanged (no master-log
write, no archive, no copy, no delete) regardless of the prior master
log, and nothing is deleted. -/
theorem C8_empty_noop (store : Store) (env : Env)
    (hread : env.readFails = false)
    (h : (processFragments store.fragments).1.isEmpty = true) :
    (handle_consolidation true store env).store = store ∧
    (handle_consolidation true store env).deleted = [] ∧
    (handle_consolidation true store env).rotated = false ∧
    ∃ msg, (handle_consolidation true store env).outcome = .ok msg 200 := by
  cases hf : store.fragments.isEmpty with
  | true =>
    simp only [handle_consolidation, hf, Bool.not_true, Bool.false_eq_true,
      if_false, if_true]
    exact ⟨trivial, trivial, trivial, _, rfl⟩
  | false =>
    simp only [handle_consolidation, hf, hread, h, Bool.not_true, Bool.false_eq_true,
      if_false, if_true]
    exact ⟨trivial, trivial, trivial, _, rfl⟩

/-- Witness for C8: one listed fragment whose text is invalid JSON. -/
theorem C8_empty_noop_witness :
    (handle_consolidation true ⟨none, [⟨"fragments/bad.json", "not json", none⟩], [], []⟩
        Env.benign).store = ⟨none, [⟨"fragments/bad.json", "not json", none⟩], [], []⟩ ∧
    (handle_consolidation true ⟨none, [⟨"fragments/bad.json", "not json", none⟩], [], []⟩
        Env.benign).deleted = [] ∧
    (handle_consolidation true ⟨none, [⟨"fragments/bad.json", "not json", none⟩], [], []⟩
        Env.benign).rotated = false ∧
    ∃ msg, (handle_consolidation true ⟨none, [⟨"fragments/bad.json", "not json", none⟩], [], []⟩
        Env.benign).outcome = .ok msg 200 :=
  C8_empty_noop ⟨none, [⟨"fragments/bad.json", "not json", none⟩], [], []⟩ Env.benign rfl rfl

/-- Claim C1: if the master-log object visible at write time no longer
matches the generation token the run writes with (the object was
modified after this run read it), the conditional write is rejected and
the run propagates the `PreconditionFailed` exception: the outcome is
fatal, the master log keeps the concurrent writer's state (this run
applies no entries, partially or otherwise), no fragment is copied or
deleted and no archive is created. -/
theorem C1_stale_token_fatal (store : Store) (env : Env) (m2 : Option MasterObj)
    (sNew : List Json)
    (hfrag : store.fragments.isEmpty = false)
    (hread : env.readFails = false)
    (hne : (processFragments store.fragments).1.isEmpty = false)
    (hsort : pySortByTimestamp (processFragments store.fragments).1 = .ok sNew)
    (hint : env.interference = some m2)
    (hstale : genMatches (writeToken store) m2 = false) :
    handle_consolidation true store env =
      ⟨.fatal .preconditionFailed, { store with master := m2 }, [], rotDecision store⟩ := by
  simp only [writeToken, rotDecision] at hstale
  simp only [handle_consolidation, rotDecision, hfrag, hread, hne, hsort, hint, hstale,
    Bool.not_true, Bool.not_false, Bool.false_eq_true, if_false, if_true]

/-- Witness for C1: a concurrent writer bumped the generation from 1 to
2 between read and write; the run fails fatally and changes nothing. -/
theorem C1_stale_token_fatal_witness :
    handle_consolidation true
      ⟨some ⟨"[]", some (.arr []), 1⟩,
       [⟨"fragments/t_a.json", "x", some (.obj [("timestamp", .str "t")])⟩], [], []⟩
      { Env.benign with interference := some (some ⟨"[1]", some (.arr [.num 1]), 2⟩) } =
      ⟨.fatal .preconditionFailed,
       ⟨some ⟨"[1]", some (.arr [.num 1]), 2⟩,
        [⟨"fragments/t_a.json", "x", some (.obj [("timestamp", .str "t")])⟩], [], []⟩,
       [], false⟩ :=
  C1_stale_token_fatal _ _ _ [.obj [("timestamp", .str "t")]] rfl rfl rfl rfl rfl rfl

/-- Claim C5: in a fault-free run in which rotation does not trigger,
the new master log is written and parses to exactly the prior entries
followed by the sorted new entries; hence every prior entry appears
unchanged in the new master log, and every successfully decoded fragment
entry of the run appears in it as well. -/
theorem C5_append_no_loss (store : Store) (env : Env) (sNew : List Json)
    (hfrag : store.fragments.isEmpty = false)
    (hread : env.readFails = false)
    (hint : env.interference = none)
    (hwrite : env.writeFails = false)
    (hne : (processFragments store.fragments).1.isEmpty = false)
    (hsort : pySortByTimestamp (processFragments store.fragments).1 = .ok sNew)
    (hrot : rotDecision store = false) :
    ∃ mo : MasterObj,
      (handle_consolidation true store env).store.master = some mo ∧
      mo.parse = some (.arr ((readMaster store.master).1 ++ sNew)) ∧
      (∀ e ∈ (readMaster store.master).1, e ∈ (readMaster store.master).1 ++ sNew) ∧
      (∀ e ∈ (processFragments store.fragments).1, e ∈ (readMaster store.master).1 ++ sNew) := by
  rw [run_append store env sNew hfrag hread hint hwrite hne hsort hrot]
  refine ⟨⟨dumpsIndent2 (.arr ((readMaster store.master).1 ++ sNew)),
          some (.arr ((readMaster store.master).1 ++ sNew)), nextGen store.master⟩,
         ?_, rfl, ?_, ?_⟩
  · simp only [appendResult]
    rw [cleanupPhase_master]
  · intro e he
    exact List.mem_append_left _ he
  · intro e he
    exact List.mem_append_right _ ((pySort_perm hsort).mem_iff.mpr he)

/-- Witness for C5: a one-entry master log and one fresh fragment. -/
theorem C5_append_no_loss_witness :
    ∃ mo : MasterObj,
      (handle_consolidation true
        ⟨some ⟨"x", some (.arr [.obj [("timestamp", .str "2024-01-01T00:00:00Z")]]), 1⟩,
         [⟨"fragments/b.json", "y", some (.obj [("timestamp", .str "2024-01-02T00:00:00Z")])⟩],
         [], []⟩ Env.benign).store.master = some mo ∧
      mo.parse = some (.arr ([.obj [("timestamp", .str "2024-01-01T00:00:00Z")]] ++
                             [.obj [("timestamp", .str "2024-01-02T00:00:00Z")]])) ∧
      (∀ e ∈ [Json.obj [("timestamp", .str "2024-01-01T00:00:00Z")]],
        e ∈ [Json.obj [("timestamp", .str "2024-01-01T00:00:00Z")]] ++
            [Json.obj [("timestamp", .str "2024-01-02T00:00:00Z")]]) ∧
      (∀ e ∈ [Json.obj [("timestamp", .str "2024-01-02T00:00:00Z")]],
        e ∈ [Json.obj [("timestamp", .str "2024-01-01T00:00:00Z")]] ++
            [Json.obj [("timestamp", .str "2024-01-02T00:00:00Z")]]) :=
  C5_append_no_loss _ Env.benign _ rfl rfl rfl rfl rfl rfl rfl

/-! Lemmas about the retirement phases, for claim C7. -/

/-- Lookup in a name-to-text object map. -/
def getObj : List (String × String) → String → Option String
  | [], _ => none
  | (n, t) :: rest, key => if n = key then some t else getObj rest key

theorem getObj_putObj_self (l : List (String × String)) (n : String) (t : String) :
    getObj (putObj l n t) n = some t := by
  induction l with
  | nil => simp [putObj, getObj]
  | cons p rest ih =>
    match p with
    | (n2, t2) =>
      by_cases h : n2 = n
      · simp [putObj, getObj, h]
      · simp [putObj, getObj, h, ih]

theorem getObj_putObj_other (l : List (String × String)) (n m t : String)
    (h : n ≠ m) : getObj (putObj l n t) m = getObj l m := by
  induction l with
  | nil => simp [putObj, getObj, h]
  | cons p rest ih =>
    match p with
    | (n2, t2) =>
      by_cases h2 : n2 = n
      · subst h2
        simp [putObj, getObj, h]
      · simp [putObj, getObj, h2, ih]

theorem copyPhase_false_of_fail {cf : String → Bool} {procd : List (String × String)}
    {v : List Fragment} (h : ∃ f ∈ v, cf f.name = true) :
    (copyPhase cf procd v).2 = false := by
  induction v generalizing procd with
  | nil => simp at h
  | cons g rest ih =>
    rcases h with ⟨f, hf, hcf⟩
    rcases List.mem_cons.mp hf with hfg | hfr
    · subst hfg
      simp [copyPhase, hcf]
    · cases hg : cf g.name with
      | true => simp [copyPhase, hg]
      | false =>
        have hstep : (copyPhase cf procd (g :: rest)).2 =
            (copyPhase cf (putObj procd (destName g.name) g.text) rest).2 := by
          simp [copyPhase, hg]
        rw [hstep]
        exact ih ⟨f, hfr, hcf⟩

theorem copyPhase_true_iff {cf : String → Bool} {procd : List (String × String)}
    {v : List Fragment} :
    (copyPhase cf procd v).2 = true ↔ ∀ f ∈ v, cf f.name = false := by
  induction v generalizing procd with
  | nil => simp [copyPhase]
  | cons g rest ih =>
    cases hg : cf g.name with
    | true =>
      have h1 : (copyPhase cf procd (g :: rest)).2 = false := by
        simp [copyPhase, hg]
      rw [h1]
      simp only [Bool.false_eq_true, false_iff]
      intro hall
      have h2 := hall g (by simp)
      rw [h2] at hg
      exact absurd hg (by simp)
    | false =>
      have h1 : (copyPhase cf procd (g :: rest)).2 =
          (copyPhase cf (putObj procd (destName g.name) g.text) rest).2 := by
        simp [copyPhase, hg]
      rw [h1, ih]
      simp [List.forall_mem_cons, hg]

theorem copyPhase_getObj_frame {cf : String → Bool} {procd : List (String × String)}
    {v : List Fragment} {n : String}
    (h : ∀ f ∈ v, destName f.name ≠ n) :
    getObj (copyPhase cf procd v).1 n = getObj procd n := by
  induction v generalizing procd with
  | nil => rfl
  | cons g rest ih =>
    cases hg : cf g.name with
    | true => simp [copyPhase, hg, getObj]
    | false =>
      have h1 : (copyPhase cf procd (g :: rest)).1 =
          (copyPhase cf (putObj procd (destName g.name) g.text) rest).1 := by
        simp [copyPhase, hg]
      rw [h1, ih (fun f hf => h f (List.mem_cons_of_mem g hf)),
        getObj_putObj_other _ _ _ _ (h g (by simp))]

theorem copyPhase_getObj {cf : String → Bool} {procd : List (String × String)}
    {v : List Fragment}
    (hok : ∀ f ∈ v, cf f.name = false)
    (hnd : (v.map (fun f => destName f.name)).Nodup) :
    ∀ f ∈ v, getObj (copyPhase cf procd v).1 (destName f.name) = some f.text := by
  induction v generalizing procd with
  | nil => simp
  | cons g rest ih =>
    intro f hf
    have h1 : (copyPhase cf procd (g :: rest)).1 =
        (copyPhase cf (putObj procd (destName g.name) g.text) rest).1 := by
      simp [copyPhase, hok g (by simp)]
    rw [h1]
    rcases List.mem_cons.mp hf with hfg | hfr
    · subst hfg
      rw [copyPhase_getObj_frame, getObj_putObj_self]
      intro f2 hf2
      have hnotin := (List.nodup_cons.mp hnd).1
      intro heq
      have hmem := List.mem_map_of_mem (fun f => destName f.name) hf2
      simp only at hmem hnotin
      rw [heq] at hmem
      exact hnotin hmem
    · exact ih (fun f2 hf2 => hok f2 (List.mem_cons_of_mem g hf2))
        (List.nodup_cons.mp hnd).2 f hfr

theorem deleteResults_names {df : String → Bool} {v : List Fragment} :
    ∀ n ∈ (deleteResults df v).1, ∃ f ∈ v, n = f.name := by
  induction v with
  | nil => simp [deleteResults]
  | cons g rest ih =>
    intro n hn
    rw [deleteResults] at hn
    cases hg : df g.name with
    | true =>
      rw [hg] at hn
      simp only [if_true] at hn
      obtain ⟨f, hf, he⟩ := ih n hn
      exact ⟨f, List.mem_cons_of_mem g hf, he⟩
    | false =>
      rw [hg] at hn
      simp only [Bool.false_eq_true, if_false, List.mem_cons] at hn
      rcases hn with he | hn
      · exact ⟨g, by simp, he⟩
      · obtain ⟨f, hf, he⟩ := ih n hn
        exact ⟨f, List.mem_cons_of_mem g hf, he⟩

/-- Claim C7: in a run that reaches retirement, the run always returns
a 200 "Consolidation complete" status (retirement failures are
non-fatal); if any copy fails nothing is deleted and every original
fragment remains; originals are deleted only after every consumed
fragment's copy succeeded, each sitting at its processed-namespace name
(prefix substituted, remainder identical) with the original's content;
and only consumed originals are ever deleted. -/
theorem C7_copy_then_delete (store : Store) (env : Env) (sNew : List Json)
    (hfrag : store.fragments.isEmpty = false)
    (hread : env.readFails = false)
    (hint : env.interference = none)
    (hwrite : env.writeFails = false)
    (hne : (processFragments store.fragments).1.isEmpty = false)
    (hsort : pySortByTimestamp (processFragments store.fragments).1 = .ok sNew)
    (hrot : rotDecision store = false)
    (hnd : ((processFragments store.fragments).2.map (fun f => destName f.name)).Nodup) :
    (∃ k : Nat, (handle_consolidation true store env).outcome =
        .ok ("Consolidation complete. Processed " ++ toString k ++ " fragments.") 200) ∧
    ((∃ f ∈ (processFragments store.fragments).2, env.copyFails f.name = true) →
        (handle_consolidation true store env).deleted = [] ∧
        (handle_consolidation true store env).store.fragments = store.fragments) ∧
    ((handle_consolidation true store env).deleted ≠ [] →
        ∀ f ∈ (processFragments store.fragments).2,
          env.copyFails f.name = false ∧
          getObj (handle_consolidation true store env).store.processed (destName f.name) =
            some f.text) ∧
    (∀ n ∈ (handle_consolidation true store env).deleted,
        ∃ f ∈ (processFragments store.fragments).2, n = f.name) := by
  rw [run_append store env sNew hfrag hread hint hwrite hne hsort hrot]
  simp only [appendResult]
  refine ⟨⟨_, rfl⟩, ?_, ?_, ?_⟩
  · intro hfail
    cases hcp : (copyPhase env.copyFails store.processed
        (processFragments store.fragments).2).2 with
    | true =>
      have hcontra := @copyPhase_false_of_fail env.copyFails store.processed
        (processFragments store.fragments).2 hfail
      rw [hcp] at hcontra
      exact absurd hcontra (by simp)
    | false =>
      constructor <;> simp [cleanupPhase, hcp]
  · intro hdel f hf
    cases hcp : (copyPhase env.copyFails store.processed
        (processFragments store.fragments).2).2 with
    | false =>
      exfalso
      apply hdel
      simp [cleanupPhase, hcp]
    | true =>
      have hok := copyPhase_true_iff.mp hcp
      refine ⟨hok f hf, ?_⟩
      have hget := @copyPhase_getObj env.copyFails store.processed
        (processFragments store.fragments).2 hok hnd f hf
      simp [cleanupPhase, hcp]
      exact hget
  · intro n hn
    cases hcp : (copyPhase env.copyFails store.processed
        (processFragments store.fragments).2).2 with
    | false => simp [cleanupPhase, hcp] at hn
    | true =>
      simp only [cleanupPhase, hcp] at hn
      apply deleteResults_names n
      simpa using hn

/-- Witness for C7: one valid fragment, failing batch delete; the run
still reports success and has copied the fragment before attempting the
delete. -/
theorem C7_copy_then_delete_witness :
    (∃ k : Nat, (handle_consolidation true
        ⟨none, [⟨"fragments/a.json", "\x7b\x7d", some (.obj [("timestamp", .str "t")])⟩], [], []⟩
        { Env.benign with deleteFails := fun _ => true }).outcome =
        .ok ("Consolidation complete. Processed " ++ toString k ++ " fragments.") 200) ∧
    ((∃ f ∈ (processFragments [⟨"fragments/a.json", "\x7b\x7d",
          some (.obj [("timestamp", .str "t")])⟩]).2,
        ({ Env.benign with deleteFails := fun _ => true } : Env).copyFails f.name = true) →
        (handle_consolidation true
          ⟨none, [⟨"fragments/a.json", "\x7b\x7d", some (.obj [("timestamp", .str "t")])⟩], [], []⟩
          { Env.benign with deleteFails := fun _ => true }).deleted = [] ∧
        (handle_consolidation true
          ⟨none, [⟨"fragments/a.json", "\x7b\x7d", some (.obj [("timestamp", .str "t")])⟩], [], []⟩
          { Env.benign with deleteFails := fun _ => true }).store.fragments =
          [⟨"fragments/a.json", "\x7b\x7d", some (.obj [("timestamp", .str "t")])⟩]) ∧
    ((handle_consolidation true
        ⟨none, [⟨"fragments/a.json", "\x7b\x7d", some (.obj [("timestamp", .str "t")])⟩], [], []⟩
        { Env.benign with deleteFails := fun _ => true }).deleted ≠ [] →
        ∀ f ∈ (processFragments [⟨"fragments/a.json", "\x7b\x7d",
            some (.obj [("timestamp", .str "t")])⟩]).2,
          ({ Env.benign with deleteFails := fun _ => true } : Env).copyFails f.name = false ∧
          getObj (handle_consolidation true
            ⟨none, [⟨"fragments/a.json", "\x7b\x7d", some (.obj [("timestamp", .str "t")])⟩], [], []⟩
            { Env.benign with deleteFails := fun _ => true }).store.processed (destName f.name) =
            some f.text) ∧
    (∀ n ∈ (handle_consolidation true
        ⟨none, [⟨"fragments/a.json", "\x7b\x7d", some (.obj [("timestamp", .str "t")])⟩], [], []⟩
        { Env.benign with deleteFails := fun _ => true }).deleted,
        ∃ f ∈ (processFragments [⟨"fragments/a.json", "\x7b\x7d",
            some (.obj [("timestamp", .str "t")])⟩]).2, n = f.name) :=
  C7_copy_then_delete _ _ [.obj [("timestamp", .str "t")]]
    rfl rfl rfl rfl rfl rfl rfl (by decide)

/-- The timestamp key of an entry as a string (empty for entries whose
key extraction fails or is not a string), for stating distinctness. -/
def keyStrOf (j : Json) : String :=
  match sortKeyOf j with
  | .ok (.str s) => s
  | _ => ""

/-- Counterexample to claim C3 as stated: prior master log
`[{"timestamp": "2024-01-02..."}]`, one fragment with the earlier
timestamp `2024-01-01...` (pairwise-distinct timestamps).  The run
succeeds, but the produced master log is the prior entry followed by
the new one — a strictly decreasing timestamp order, because the merge
appends `sorted(new)` after `old` without re-sorting. -/
theorem C3_counterexample :
    (∃ k : Nat, (handle_consolidation true
        ⟨some ⟨"m", some (.arr [.obj [("timestamp", .str "2024-01-02T00:00:00Z")]]), 1⟩,
         [⟨"fragments/a.json", "x", some (.obj [("timestamp", .str "2024-01-01T00:00:00Z")])⟩],
         [], []⟩ Env.benign).outcome =
      .ok ("Consolidation complete. Processed " ++ toString k ++ " fragments.") 200) ∧
    ∃ mo, (handle_consolidation true
        ⟨some ⟨"m", some (.arr [.obj [("timestamp", .str "2024-01-02T00:00:00Z")]]), 1⟩,
         [⟨"fragments/a.json", "x", some (.obj [("timestamp", .str "2024-01-01T00:00:00Z")])⟩],
         [], []⟩ Env.benign).store.master = some mo ∧
      mo.parse = some (.arr [.obj [("timestamp", .str "2024-01-02T00:00:00Z")],
                             .obj [("timestamp", .str "2024-01-01T00:00:00Z")]]) ∧
      tsSortedB [.obj [("timestamp", .str "2024-01-02T00:00:00Z")],
                 .obj [("timestamp", .str "2024-01-01T00:00:00Z")]] = false :=
  ⟨⟨1, rfl⟩, _, rfl, rfl, rfl⟩

/-- Claim C3, amended: in a fault-free run with string (e.g. ISO-8601)
pairwise-distinct timestamps that takes the append path, the produced
master log is exactly the prior entries followed by the new fragment
entries sorted in non-decreasing timestamp order; the prior entries are
not re-sorted, so the whole master log is in non-decreasing timestamp
order whenever the prior master log is empty. -/
theorem C3_sorted_amended (store : Store) (env : Env) (sNew : List Json)
    (hfrag : store.fragments.isEmpty = false)
    (hread : env.readFails = false)
    (hint : env.interference = none)
    (hwrite : env.writeFails = false)
    (hne : (processFragments store.fragments).1.isEmpty = false)
    (hsort : pySortByTimestamp (processFragments store.fragments).1 = .ok sNew)
    (hrot : rotDecision store = false)
    (hstr : (processFragments store.fragments).1.all isStrKeyB = true)
    (_hdist : ((processFragments store.fragments).1.map keyStrOf).Nodup) :
    ∃ mo : MasterObj,
      (handle_consolidation true store env).store.master = some mo ∧
      mo.parse = some (.arr ((readMaster store.master).1 ++ sNew)) ∧
      tsSortedB sNew = true ∧
      ((readMaster store.master).1 = [] →
        tsSortedB ((readMaster store.master).1 ++ sNew) = true) := by
  rw [run_append store env sNew hfrag hread hint hwrite hne hsort hrot]
  refine ⟨⟨dumpsIndent2 (.arr ((readMaster store.master).1 ++ sNew)),
          some (.arr ((readMaster store.master).1 ++ sNew)), nextGen store.master⟩,
         ?_, rfl, ?_, ?_⟩
  · simp only [appendResult]
    rw [cleanupPhase_master]
  · exact (pySort_sorted hstr hsort).1
  · intro hempty
    rw [hempty, List.nil_append]
    exact (pySort_sorted hstr hsort).1

/-- Witness for the amended C3: empty master log, two out-of-order
fragments with distinct timestamps; the result is fully sorted. -/
theorem C3_sorted_amended_witness :
    ∃ mo : MasterObj,
      (handle_consolidation true
        ⟨none,
         [⟨"fragments/b.json", "x", some (.obj [("timestamp", .str "2024-01-02T00:00:00Z")])⟩,
          ⟨"fragments/a.json", "y", some (.obj [("timestamp", .str "2024-01-01T00:00:00Z")])⟩],
         [], []⟩ Env.benign).store.master = some mo ∧
      mo.parse = some (.arr ([] ++ [.obj [("timestamp", .str "2024-01-01T00:00:00Z")],
                                    .obj [("timestamp", .str "2024-01-02T00:00:00Z")]])) ∧
      tsSortedB [.obj [("timestamp", .str "2024-01-01T00:00:00Z")],
                 .obj [("timestamp", .str "2024-01-02T00:00:00Z")]] = true ∧
      (([] : List Json) = [] →
        tsSortedB ([] ++ [.obj [("timestamp", .str "2024-01-01T00:00:00Z")],
                          .obj [("timestamp", .str "2024-01-02T00:00:00Z")]]) = true) :=
  C3_sorted_amended _ Env.benign
    [.obj [("timestamp", .str "2024-01-01T00:00:00Z")],
     .obj [("timestamp", .str "2024-01-02T00:00:00Z")]]
    rfl rfl rfl rfl rfl rfl rfl rfl (by decide)

/-- With no failing deletes, the batch deletes exactly the consumed
originals, in order. -/
theorem deleteResults_all_ok {df : String → Bool} {v : List Fragment}
    (h : ∀ f ∈ v, df f.name = false) :
    deleteResults df v = (v.map Fragment.name, false) := by
  induction v with
  | nil => rfl
  | cons g rest ih =>
    rw [deleteResults, h g (by simp), ih (fun f hf => h f (List.mem_cons_of_mem g hf))]
    simp

/-- Characterization of the fragment-processing loop: kept fragments are
exactly those that are not directory markers and whose text parses, and
the decoded entries are their parses, in listing order. -/
theorem processFragments_eq (fs : List Fragment) :
    processFragments fs =
      ((fs.filter (fun f => !endsWithSlash f.name && f.parse.isSome)).filterMap Fragment.parse,
       fs.filter (fun f => !endsWithSlash f.name && f.parse.isSome)) := by
  induction fs with
  | nil => rfl
  | cons f rest ih =>
    rw [processFragments]
    cases he : endsWithSlash f.name with
    | true => simp [List.filter_cons, he, ih]
    | false =>
      cases hp : f.parse with
      | none => simp [List.filter_cons, he, hp, ih]
      | some j => simp [List.filter_cons, he, hp, ih]

/-- Counterexample to claim C6 as stated: a fragment whose content is
the valid JSON text `42` — not a valid LogEntry (not a structured
record) — together with a perfectly valid fragment.  `json.loads`
accepts `42`, so the fragment is not excluded; the sort key extraction
`x.get("timestamp", ...)` then raises `AttributeError` on the integer,
the run aborts fatally, and the valid fragment is not processed. -/
theorem C6_counterexample :
    handle_consolidation true
      ⟨none, [⟨"fragments/bad.json", "42", some (.num 42)⟩,
              ⟨"fragments/good.json", "x", some (.obj [("timestamp", .str "t")])⟩], [], []⟩
      Env.benign =
      ⟨.fatal .attributeError,
       ⟨none, [⟨"fragments/bad.json", "42", some (.num 42)⟩,
               ⟨"fragments/good.json", "x", some (.obj [("timestamp", .str "t")])⟩], [], []⟩,
       [], false⟩ := rfl

/-- Claim C6, amended: a fragment whose content fails JSON parsing (or a
directory marker) is excluded from both the merged entries and the
retirement set and does not abort the run; every fragment that parses to
a timestamped record in the same run is still merged and retired.  A
fragment parsing to a non-record JSON value, however, is not excluded
and aborts the run (see the counterexample). -/
theorem C6_amended (store : Store) (env : Env) (sNew : List Json)
    (hfrag : store.fragments.isEmpty = false)
    (hread : env.readFails = false)
    (hint : env.interference = none)
    (hwrite : env.writeFails = false)
    (hne : (processFragments store.fragments).1.isEmpty = false)
    (hsort : pySortByTimestamp (processFragments store.fragments).1 = .ok sNew)
    (hrot : rotDecision store = false)
    (hcopy : ∀ f ∈ (processFragments store.fragments).2, env.copyFails f.name = false)
    (hdel : ∀ f ∈ store.fragments, env.deleteFails f.name = false) :
    (processFragments store.fragments).2 =
      store.fragments.filter (fun f => !endsWithSlash f.name && f.parse.isSome) ∧
    (processFragments store.fragments).1 =
      (processFragments store.fragments).2.filterMap Fragment.parse ∧
    (handle_consolidation true store env).outcome =
      .ok ("Consolidation complete. Processed " ++
        toString (processFragments store.fragments).2.length ++ " fragments.") 200 ∧
    (handle_consolidation true store env).deleted =
      (processFragments store.fragments).2.map Fragment.name := by
  have hchar := processFragments_eq store.fragments
  refine ⟨by rw [hchar], by rw [hchar], ?_⟩
  rw [run_append store env sNew hfrag hread hint hwrite hne hsort hrot]
  simp only [appendResult]
  have hvs : ∀ f ∈ (processFragments store.fragments).2, f ∈ store.fragments := by
    intro f hf
    rw [hchar] at hf
    exact List.mem_of_mem_filter hf
  have hcpOk : (copyPhase env.copyFails store.processed
      (processFragments store.fragments).2).2 = true :=
    copyPhase_true_iff.mpr hcopy
  have hdr := @deleteResults_all_ok env.deleteFails
    (processFragments store.fragments).2 (fun f hf => hdel f (hvs f hf))
  constructor
  · simp only [cleanupPhase, hcpOk, hdr, if_true, Bool.false_eq_true, if_false]
  · simp only [cleanupPhase, hcpOk, hdr, if_true, Bool.false_eq_true, if_false]

/-- Witness for the amended C6: an unparseable fragment and a directory
marker are skipped, a valid fragment in the same run is merged and
retired, and the run returns success. -/
theorem C6_amended_witness :
    (processFragments [⟨"fragments/bad.json", "not json", none⟩,
       ⟨"fragments/sub/", "", none⟩,
       ⟨"fragments/good.json", "x", some (.obj [("timestamp", .str "t")])⟩]).2 =
      ([⟨"fragments/bad.json", "not json", none⟩,
        ⟨"fragments/sub/", "", none⟩,
        ⟨"fragments/good.json", "x", some (.obj [("timestamp", .str "t")])⟩] :
        List Fragment).filter (fun f => !endsWithSlash f.name && f.parse.isSome) ∧
    (processFragments [⟨"fragments/bad.json", "not json", none⟩,
       ⟨"fragments/sub/", "", none⟩,
       ⟨"fragments/good.json", "x", some (.obj [("timestamp", .str "t")])⟩]).1 =
      (processFragments [⟨"fragments/bad.json", "not json", none⟩,
        ⟨"fragments/sub/", "", none⟩,
        ⟨"fragments/good.json", "x", some (.obj [("timestamp", .str "t")])⟩]).2.filterMap
          Fragment.parse ∧
    (handle_consolidation true
      ⟨none, [⟨"fragments/bad.json", "not json", none⟩,
              ⟨"fragments/sub/", "", none⟩,
              ⟨"fragments/good.json", "x", some (.obj [("timestamp", .str "t")])⟩], [], []⟩
      Env.benign).outcome =
      .ok ("Consolidation complete. Processed " ++
        toString (processFragments [⟨"fragments/bad.json", "not json", none⟩,
          ⟨"fragments/sub/", "", none⟩,
          ⟨"fragments/good.json", "x", some (.obj [("timestamp", .str "t")])⟩]).2.length ++
        " fragments.") 200 ∧
    (handle_consolidation true
      ⟨none, [⟨"fragments/bad.json", "not json", none⟩,
              ⟨"fragments/sub/", "", none⟩,
              ⟨"fragments/good.json", "x", some (.obj [("timestamp", .str "t")])⟩], [], []⟩
      Env.benign).deleted =
      (processFragments [⟨"fragments/bad.json", "not json", none⟩,
        ⟨"fragments/sub/", "", none⟩,
        ⟨"fragments/good.json", "x", some (.obj [("timestamp", .str "t")])⟩]).2.map
          Fragment.name :=
  C6_amended
    ⟨none, [⟨"fragments/bad.json", "not json", none⟩,
            ⟨"fragments/sub/", "", none⟩,
            ⟨"fragments/good.json", "x", some (.obj [("timestamp", .str "t")])⟩], [], []⟩
    Env.benign [.obj [("timestamp", .str "t")]]
    rfl rfl rfl rfl rfl rfl rfl (fun _ _ => rfl) (fun _ _ => rfl)

/-- Claim C10: the rotation decision of any run reaching it is a
deterministic function of the in-memory prior entries only, firing
exactly when the UTF-8 byte length of their single-line default JSON
serialization strictly exceeds 204800 bytes (equivalently, when the
literal float test `len/1024 > 200` of the source holds); yet the
master-log object itself is written pretty-printed with two-space
indentation, so the measured size can be strictly smaller than the size
of the stored master-log object, as the concrete final conjunct
exhibits. -/
theorem C10_rotation_size (store : Store) (env : Env) (sNew : List Json)
    (hfrag : store.fragments.isEmpty = false)
    (hread : env.readFails = false)
    (hne : (processFragments store.fragments).1.isEmpty = false)
    (hsort : pySortByTimestamp (processFragments store.fragments).1 = .ok sNew) :
    (handle_consolidation true store env).rotated = rotDecision store ∧
    (rotDecision store = true ↔
      204800 < utf8Len (dumps (.arr (readMaster store.master).1))) ∧
    (rotDecision store = true ↔
      rotationCheckSpec (dumps (.arr (readMaster store.master).1))) ∧
    (∃ mo, (handle_consolidation true
        ⟨none, [⟨"fragments/a.json", "x",
          some (.obj [("timestamp", .str "2024-01-01T00:00:00Z")])⟩], [], []⟩
        Env.benign).store.master = some mo ∧
      mo.text = dumpsIndent2 (.arr [.obj [("timestamp", .str "2024-01-01T00:00:00Z")]]) ∧
      utf8Len (dumps (.arr (readMaster (some mo)).1)) < utf8Len mo.text) := by
  refine ⟨?_, ?_, ?_, ?_⟩
  · simp only [handle_consolidation, hfrag, hread, hne, hsort, rotDecision,
      Bool.not_true, Bool.false_eq_true, if_false, if_true]
    repeat' split
    all_goals rfl
  · rw [rotDecision, rotationCheck]
    exact decide_eq_true_iff
  · exact rotationCheck_correct _
  · exact ⟨_, rfl, rfl, by decide⟩

/-- Witness for C10: a run over a one-entry prior master log. -/
theorem C10_rotation_size_witness :
    (handle_consolidation true
      ⟨some ⟨"m", some (.arr [.obj [("timestamp", .str "2024-01-01T00:00:00Z")]]), 1⟩,
       [⟨"fragments/b.json", "x", some (.obj [("timestamp", .str "2024-01-02T00:00:00Z")])⟩],
       [], []⟩ Env.benign).rotated =
      rotDecision ⟨some ⟨"m", some (.arr [.obj [("timestamp", .str "2024-01-01T00:00:00Z")]]), 1⟩,
       [⟨"fragments/b.json", "x", some (.obj [("timestamp", .str "2024-01-02T00:00:00Z")])⟩],
       [], []⟩ ∧
    (rotDecision ⟨some ⟨"m", some (.arr [.obj [("timestamp", .str "2024-01-01T00:00:00Z")]]), 1⟩,
       [⟨"fragments/b.json", "x", some (.obj [("timestamp", .str "2024-01-02T00:00:00Z")])⟩],
       [], []⟩ = true ↔
      204800 < utf8Len (dumps (.arr (readMaster (some ⟨"m",
        some (.arr [.obj [("timestamp", .str "2024-01-01T00:00:00Z")]]), 1⟩)).1))) ∧
    (rotDecision ⟨some ⟨"m", some (.arr [.obj [("timestamp", .str "2024-01-01T00:00:00Z")]]), 1⟩,
       [⟨"fragments/b.json", "x", some (.obj [("timestamp", .str "2024-01-02T00:00:00Z")])⟩],
       [], []⟩ = true ↔
      rotationCheckSpec (dumps (.arr (readMaster (some ⟨"m",
        some (.arr [.obj [("timestamp", .str "2024-01-01T00:00:00Z")]]), 1⟩)).1))) ∧
    (∃ mo, (handle_consolidation true
        ⟨none, [⟨"fragments/a.json", "x",
          some (.obj [("timestamp", .str "2024-01-01T00:00:00Z")])⟩], [], []⟩
        Env.benign).store.master = some mo ∧
      mo.text = dumpsIndent2 (.arr [.obj [("timestamp", .str "2024-01-01T00:00:00Z")]]) ∧
      utf8Len (dumps (.arr (readMaster (some mo)).1)) < utf8Len mo.text) :=
  C10_rotation_size
    ⟨some ⟨"m", some (.arr [.obj [("timestamp", .str "2024-01-01T00:00:00Z")]]), 1⟩,
     [⟨"fragments/b.json", "x", some (.obj [("timestamp", .str "2024-01-02T00:00:00Z")])⟩],
     [], []⟩ Env.benign
    [.obj [("timestamp", .str "2024-01-02T00:00:00Z")]] rfl rfl rfl rfl

/-- Claim C2, evaluated at the failing input (code bug): with an
oversized prior master log (compact serialization 204820 bytes >
204800) stored at generation 1 and one valid fragment, rotation fires;
the code then writes with `if_generation_match=0`, which GCS reads as
"the object must not exist" — but the master log does exist, so the
write raises `PreconditionFailed` and the run dies fatally with no new
master log, no archive object and no retirement.  The claim (and the
code's own comment "no existing generation to match") expects this
write to succeed and the archive to be created. -/
theorem C2_rotation_write_bug :
    handle_consolidation true
      ⟨some ⟨"m", some (.arr [bigEntry]), 1⟩,
       [⟨"fragments/a.json", "x", some (.obj [("timestamp", .str "t")])⟩], [], []⟩
      Env.benign =
      ⟨.fatal .preconditionFailed,
       ⟨some ⟨"m", some (.arr [bigEntry]), 1⟩,
        [⟨"fragments/a.json", "x", some (.obj [("timestamp", .str "t")])⟩], [], []⟩,
       [], true⟩ :=
  run_rotate_conflict
    ⟨some ⟨"m", some (.arr [bigEntry]), 1⟩,
     [⟨"fragments/a.json", "x", some (.obj [("timestamp", .str "t")])⟩], [], []⟩
    Env.benign [.obj [("timestamp", .str "t")]]
    rfl rfl rfl rfl rfl rotationCheck_bigEntry rfl

/-- The oversized fragment of the C4 scenario. -/
def c4Frag : Fragment := ⟨"fragments/big.json", "t", some bigEntry⟩

/-- Initial store of the C4 scenario: empty master log, one oversized
fragment. -/
def c4Store : Store := ⟨none, [c4Frag], [], []⟩

/-- Environment of the first C4 run: the batched delete fails (the
simulated failure between copy-completion and delete-completion). -/
def c4Env : Env := { Env.benign with deleteFails := fun _ => true }

/-- The master log written by the first C4 run. -/
def c4Master : MasterObj := ⟨dumpsIndent2 (.arr [bigEntry]), some (.arr [bigEntry]), 1⟩

/-- The store after the first C4 run: master written, fragment copied to
the processed namespace, original never deleted. -/
def c4Store1 : Store := ⟨some c4Master, [c4Frag], [("processed/big.json", "t")], []⟩

set_option maxRecDepth 2000 in
/-- Claim C4, evaluated at a failing input (code bug): run 1 consumes an
oversized fragment, copies it to the processed namespace, fails the
batched delete after copy-completion, and still returns success with the
original left in place — the claim's simulated-failure premise.  The
fault-free re-run then reads the now-oversized master log, takes the
rotation branch, and its `if_generation_match=0` write is rejected
because the master log exists: the re-run dies fatally before
retirement, with the state unchanged, so every further identical re-run
does the same and the original fragment is never deleted — contradicting
"re-running consolidation eventually deletes all original fragment
objects". -/
theorem C4_rerun_never_deletes :
    handle_consolidation true c4Store c4Env =
      ⟨.ok "Consolidation complete. Processed 0 fragments." 200, c4Store1, [], false⟩ ∧
    handle_consolidation true c4Store1 Env.benign =
      ⟨.fatal .preconditionFailed, c4Store1, [], true⟩ := by
  have h1 : handle_consolidation true c4Store c4Env =
      ⟨.ok "Consolidation complete. Processed 0 fragments." 200, c4Store1, [], false⟩ := rfl
  have hfrag : c4Store1.fragments.isEmpty = false := rfl
  have hne : (processFragments c4Store1.fragments).1.isEmpty = false := rfl
  have hsort : pySortByTimestamp (processFragments c4Store1.fragments).1 = .ok [bigEntry] := rfl
  have hgm : genMatches 0 c4Store1.master = false := rfl
  exact ⟨h1, run_rotate_conflict c4Store1 Env.benign [bigEntry]
    hfrag rfl rfl hne hsort rotationCheck_bigEntry hgm⟩

end GitLogger
